import Mathlib

/-!
Verification of the readiness/reload core of `github-app-setup-go`.

This file is a shallow embedding, in Lean 4, of the pieces of the
repository that the readiness/reload claims are about:

* the bounded retry loop `configwait.Wait` and its twin
  `Runtime.loadWithRetry` (`configwait` package / `ghappsetup` package,
  file `runtime_lambda.go`);
* the effective-configuration computation of `ghappsetup.NewRuntime`
  (environment defaults for `MaxRetries` / `RetryInterval`);
* the `configwait.ReadyGate` HTTP dispatch (`ServeHTTP`,
  `isAllowedPath`, `serveUnavailable`);
* the capacity-1 reload channel used by `Runtime.ReloadCallback` and
  `configwait.Reloader.Trigger`;
* the Lambda lazy-load guard (`Runtime.EnsureLoaded`,
  `Runtime.waitForLoad`, `Runtime.ResetLoadState`), both as a
  sequential-call semantics and as an interleaving transition system
  for concurrent callers.

Pure Go time (sleep durations, ticker periods) is not modelled; waits
appear only through the points at which the code polls cancellation.
A Go `error` value is an element of an arbitrary type `ε`; `nil` is
`Option.none`.  A `context.Context` is modelled by the points where the
code selects on `ctx.Done()`: the retry loop consults it once per
inter-attempt wait, so cancellation is a predicate on attempt indices.
-/

namespace Configwait

/-- Outcome of one retry-loop run: success, the last attempt's error
(returned verbatim as the same `ε` value), or the context's
cancellation error (`ctx.Err()`), which is distinct from every
operation error. -/
inductive RetryResult (ε : Type) where
  | ok : RetryResult ε
  | opErr (e : ε) : RetryResult ε
  | ctxErr : RetryResult ε
deriving DecidableEq, Repr

/-- Core of the `for attempt := 1; attempt <= MaxRetries; attempt++`
loop shared verbatim by `configwait.Wait` and
`Runtime.loadWithRetry`.  `load k` is the result of the `k`-th call of
the fallible operation (`none` = success, `some e` = failure with
error `e`); `cancelled k = true` means the context becomes done during
the wait that follows failed attempt `k`.  Arguments: current attempt
number (1-based), remaining loop iterations, `lastErr`, and the count
of operation invocations so far.  Returns the loop's result paired
with the total number of invocations. -/
def retryLoop (load : Nat → Option ε) (cancelled : Nat → Bool) :
    Nat → Nat → Option ε → Nat → RetryResult ε × Nat
  | _, 0, lastErr, cnt =>
      (match lastErr with
       | none => .ok
       | some e => .opErr e, cnt)
  | attempt, remaining + 1, _lastErr, cnt =>
      match load attempt with
      | none => (.ok, cnt + 1)
      | some e =>
        if remaining = 0 then
          (.opErr e, cnt + 1)
        else if cancelled attempt then
          (.ctxErr, cnt + 1)
        else
          retryLoop load cancelled (attempt + 1) remaining (some e) (cnt + 1)

/-- The `configwait.Config` value: `MaxRetries` is a Go `int` (so it can
be negative), `RetryInterval` a duration in nanoseconds. -/
structure Config where
  MaxRetries : Int
  RetryInterval : Int
deriving DecidableEq, Repr

/-- The function `configwait.Wait`: run the retry loop for attempts
`1 .. MaxRetries` starting with `lastErr = nil`.  When
`MaxRetries <= 0` the loop body never runs and the final
`return lastErr` returns `nil`. -/
def Wait (cfg : Config) (cancelled : Nat → Bool) (load : Nat → Option ε) :
    RetryResult ε × Nat :=
  retryLoop load cancelled 1 cfg.MaxRetries.toNat none 0

end Configwait

namespace Ghappsetup

open Configwait

/-- The detected runtime environment (`ghappsetup.Environment`). -/
inductive Environment where
  | http : Environment
  | lambda : Environment
deriving DecidableEq, Repr

/-- Constant `defaultHTTPMaxRetries` from `runtime.go`. -/
def defaultHTTPMaxRetries : Int := 30

/-- Constant `defaultLambdaMaxRetries` from `runtime.go`. -/
def defaultLambdaMaxRetries : Int := 5

/-- Constant `defaultHTTPRetryInterval` (2 s, in ns) from `runtime.go`. -/
def defaultHTTPRetryInterval : Int := 2000000000

/-- Constant `defaultLambdaRetryInterval` (1 s, in ns) from `runtime.go`. -/
def defaultLambdaRetryInterval : Int := 1000000000

/-- The fields of `ghappsetup.Config` the claims are about.  `LoadFunc`
is a Go function value; only its presence (`nil` or not) matters to
construction, so it is a flag here. -/
structure RunConfig where
  hasLoadFunc : Bool
  MaxRetries : Int
  RetryInterval : Int
deriving DecidableEq, Repr

/-- The configuration-normalisation part of `ghappsetup.NewRuntime`:
reject a `nil` `LoadFunc`; replace a zero `MaxRetries` /
`RetryInterval` by the environment default; leave every nonzero value
(negative values included) unchanged.  `none` models the constructor
returning an error. -/
def newRuntimeConfig (cfg : RunConfig) (env : Environment) : Option RunConfig :=
  if cfg.hasLoadFunc = false then
    none
  else
    some
      { cfg with
        MaxRetries :=
          if cfg.MaxRetries = 0 then
            match env with
            | .lambda => defaultLambdaMaxRetries
            | .http => defaultHTTPMaxRetries
          else cfg.MaxRetries
        RetryInterval :=
          if cfg.RetryInterval = 0 then
            match env with
            | .lambda => defaultLambdaRetryInterval
            | .http => defaultHTTPRetryInterval
          else cfg.RetryInterval }

/-- The method `Runtime.loadWithRetry` from `runtime_lambda.go`: the
same loop as `configwait.Wait`, read off `r.config.MaxRetries`. -/
def loadWithRetry (cfg : RunConfig) (cancelled : Nat → Bool)
    (load : Nat → Option ε) : RetryResult ε × Nat :=
  retryLoop load cancelled 1 cfg.MaxRetries.toNat none 0

end Ghappsetup

namespace Configwait

/-- An HTTP 503 response as written by `ReadyGate.serveUnavailable`:
status, the two headers it sets, and the JSON object body in the key
order produced by `encoding/json` for a `map[string]string`. -/
structure HttpResponse where
  status : Nat
  contentType : String
  retryAfter : String
  bodyJson : List (String × String)
deriving DecidableEq, Repr

/-- Outcome of `ReadyGate.ServeHTTP` for one request: either the request
is forwarded to the current inner handler (of abstract type `η`), or
the gate answers directly with a response of its own. -/
inductive DispatchResult (η : Type) where
  | forwarded (h : η) : DispatchResult η
  | respond (r : HttpResponse) : DispatchResult η
deriving DecidableEq, Repr

/-- The method `ReadyGate.serveUnavailable`: a 503 with
`Content-Type: application/json`, `Retry-After: 5`, and the JSON body
carrying `error = service_unavailable` and the given message. -/
def serveUnavailable (message : String) : HttpResponse :=
  { status := 503
    contentType := "application/json"
    retryAfter := "5"
    bodyJson := [("error", "service_unavailable"), ("message", message)] }

/-- Go's `strings.HasPrefix(s, pre)`.  A byte prefix of valid UTF-8
strings coincides with a character prefix, so it is stated on the
character lists (which the kernel can evaluate). -/
def hasPrefix (pre s : String) : Bool :=
  pre.data.isPrefixOf s.data

/-- The method `ReadyGate.isAllowedPath`: iterate over `allowedPaths`;
the root prefix matches only the exact path `/`, every other entry
matches as a plain prefix (`strings.HasPrefix(path, allowed)`). -/
def isAllowedPath (allowedPaths : List String) (path : String) : Bool :=
  match allowedPaths with
  | [] => false
  | allowed :: rest =>
    if allowed = "/" then
      if path = "/" then true else isAllowedPath rest path
    else if hasPrefix allowed path then true
    else isAllowedPath rest path

/-- The method `ReadyGate.ServeHTTP`.  `ready` is the gate's atomic
readiness flag, `handler` the current handler (`none` while absent, as
with `NewReadyGate(nil, …)` before `SetHandler`). -/
def ServeHTTP (allowedPaths : List String) (ready : Bool) (handler : Option η)
    (path : String) : DispatchResult η :=
  if isAllowedPath allowedPaths path then
    match handler with
    | some h => .forwarded h
    | none => .respond (serveUnavailable "service starting up")
  else if ready = false then
    .respond (serveUnavailable "service not ready, configuration loading")
  else
    match handler with
    | some h => .forwarded h
    | none => .respond (serveUnavailable "service starting up")

/-- The allowed-path condition as the spec words it: exact match for the
root prefix `/`, prefix match otherwise.  Stated independently of
`isAllowedPath` so the two can be compared. -/
def allowedBySpec (allowedPaths : List String) (path : String) : Prop :=
  ∃ a ∈ allowedPaths, (a = "/" ∧ path = "/") ∨ (a ≠ "/" ∧ hasPrefix a path = true)

/-- A Go buffered channel of empty-struct tokens, reduced to its
capacity and the number of currently queued tokens. -/
structure TokenChan where
  cap : Nat
  queued : Nat
deriving DecidableEq, Repr

/-- A non-blocking send, the `select` with a `default` arm used by both
`Runtime.ReloadCallback`'s closure and `Reloader.Trigger`: place a
token if the buffer has room, otherwise do nothing (the trigger is
coalesced) — the caller is never blocked. -/
def trySend (c : TokenChan) : TokenChan :=
  if c.queued < c.cap then { c with queued := c.queued + 1 } else c

/-- A receive from the channel, as performed by the listener loop
(`ListenForReloads` / `Reloader.Start`) when it drains `reloadCh`.  An
empty buffer means the listener blocks, so nothing changes. -/
def recvToken (c : TokenChan) : TokenChan :=
  if 0 < c.queued then { c with queued := c.queued - 1 } else c

/-- The reload channel built by `NewRuntime` and `NewReloader`:
a buffered channel of capacity 1, initially empty. -/
def newReloadCh : TokenChan := { cap := 1, queued := 0 }

/-- The trigger performed by the closure returned from
`Runtime.ReloadCallback`. -/
def reloadCallbackTrigger : TokenChan → TokenChan := trySend

/-- The method `Reloader.Trigger`. -/
def reloaderTrigger : TokenChan → TokenChan := trySend

/-- An event on the reload channel: a producer trigger or a listener
receive. -/
inductive ChanOp where
  | trigger : ChanOp
  | recv : ChanOp
deriving DecidableEq, Repr

/-- Apply one channel event. -/
def applyOp (c : TokenChan) : ChanOp → TokenChan
  | .trigger => trySend c
  | .recv => recvToken c

/-- Run a sequence of channel events from a given channel state. -/
def runOps (c : TokenChan) (ops : List ChanOp) : TokenChan :=
  ops.foldl applyOp c

end Configwait

namespace Ghappsetup

open Configwait

/-- A recorded Go error in the lazy-load state: either a domain error
from `LoadFunc` (`Sum.inl`) or the context's cancellation error
`ctx.Err()` (`Sum.inr ()`). -/
def retryErr : RetryResult ε → Option (ε ⊕ Unit)
  | .ok => none
  | .opErr e => some (Sum.inl e)
  | .ctxErr => some (Sum.inr ())

/-- The mutable state of one `Runtime` together with its `lambdaState`:
the guard fields `loading` / `loaded` / `lastError`, the runtime's
`ready` flag, and — for server environments (`hasGate`) — the gate's
own atomic readiness flag. -/
structure RtState (ε : Type) where
  loading : Bool
  loaded : Bool
  lastError : Option (ε ⊕ Unit)
  ready : Bool
  hasGate : Bool
  gateReady : Bool
deriving DecidableEq, Repr

/-- The state of a freshly constructed `Runtime` (a gate exists exactly
in the HTTP environment). -/
def initialRtState (ε : Type) (hasGate : Bool) : RtState ε :=
  { loading := false, loaded := false, lastError := none,
    ready := false, hasGate := hasGate, gateReady := false }

/-- The method `Runtime.IsReady`. -/
def IsReady (s : RtState ε) : Bool := s.ready

/-- The method `Runtime.setReady`: store the flag, and when it is `true`
and a gate exists also call `gate.SetReady()` (which only ever stores
`true` into the gate's flag). -/
def setReady (s : RtState ε) (b : Bool) : RtState ε :=
  { s with ready := b
           gateReady := if b && s.hasGate then true else s.gateReady }

/-- The method `Runtime.ResetLoadState`: clear the guard fields and the
runtime's own `ready` flag.  The gate is not touched. -/
def ResetLoadState (s : RtState ε) : RtState ε :=
  { s with loaded := false, loading := false, lastError := none, ready := false }

/-- Result of one sequential `EnsureLoaded` call: the returned Go error
value (`none` = success), or `hang` for an entry state whose `loading`
flag is set with no concurrent loader to clear it (the `waitForLoad`
poll loop would then never return). -/
inductive SeqResult (ε : Type) where
  | ret (e : Option (ε ⊕ Unit)) : SeqResult ε
  | hang : SeqResult ε
deriving DecidableEq, Repr

/-- One sequential (single-caller) execution of `Runtime.EnsureLoaded`:
the fast path when `loaded`, the `waitForLoad` path when `loading`,
otherwise the caller becomes the loader, runs `loadWithRetry`, and
publishes the outcome (setting `loaded` and calling `setReady(true)`
on success, recording `lastError` on failure).  Returns the call's
result, the new state, and the number of `LoadFunc` invocations. -/
def EnsureLoaded (cfg : RunConfig) (cancelled : Nat → Bool) (load : Nat → Option ε)
    (s : RtState ε) : SeqResult ε × RtState ε × Nat :=
  if s.loaded then (.ret none, s, 0)
  else if s.loading then (.hang, s, 0)
  else
    match loadWithRetry cfg cancelled load with
    | (.ok, c) =>
        (.ret none, setReady { s with loading := false, loaded := true } true, c)
    | (r, c) =>
        (.ret (retryErr r), { s with loading := false, lastError := retryErr r }, c)

/-- Iterate sequential `EnsureLoaded` calls, accumulating the total
number of `LoadFunc` invocations and whether every call returned
success. -/
def ensureLoadedRepeat (cfg : RunConfig) (cancelled : Nat → Bool) (load : Nat → Option ε) :
    Nat → RtState ε → RtState ε × Nat × Bool
  | 0, s => (s, 0, true)
  | n + 1, s =>
    let step := EnsureLoaded cfg cancelled load s
    let rest := ensureLoadedRepeat cfg cancelled load n step.2.1
    (rest.1, step.2.2 + rest.2.1,
      (match step.1 with
       | .ret none => true
       | _ => false) && rest.2.2)

end Ghappsetup

namespace Ghappsetup

/-- Phase of one goroutine executing `EnsureLoaded` in the interleaving
model of `runtime_lambda.go`.  `E` is the type of recorded Go error
values.  `start` is a caller about to run the entry critical section
(lines 64–79); `load` is the elected loader between releasing the lock
and finishing `loadWithRetry`; `finish e` is the loader about to run
the exit critical section (lines 83–91) with `loadWithRetry`'s result
`e`; `wait` is a caller polling inside `waitForLoad`; `done r` is a
caller that returned `r`. -/
inductive Phase (E : Type) where
  | start : Phase E
  | load : Phase E
  | finish (err : Option E) : Phase E
  | wait : Phase E
  | done (res : Option E) : Phase E
deriving DecidableEq, Repr

/-- Global state of the interleaving model: the `lambdaState` fields
(`loading` / `loaded` / `lastError`), the runtime `ready` flag, the
number of `LoadFunc` invocations performed so far, and every
goroutine's phase. -/
structure CState (E : Type) where
  loading : Bool
  loaded : Bool
  lastError : Option E
  ready : Bool
  count : Nat
  threads : List (Phase E)
deriving DecidableEq, Repr

/-- Initial state: a fresh `lambdaState` and `K` goroutines all about to
call `EnsureLoaded`. -/
def initCState (E : Type) (K : Nat) : CState E :=
  { loading := false, loaded := false, lastError := none, ready := false,
    count := 0, threads := List.replicate K .start }

/-- One interleaving step of the model.  Every constructor is one
mutex-protected critical section of `EnsureLoaded`, one full
`loadWithRetry` run (which touches no shared `lambdaState`, so its
internal granularity is irrelevant), or one `waitForLoad` ticker poll.
The relation is parametrised by the loader's `loadWithRetry` outcome —
the returned error `lres` and its invocation count `lcount` — and by
`ctxDone`, whether the callers' context is done (the `ctx.Done()`
branch of `waitForLoad`), with `ctxe` the value of `ctx.Err()`. -/
inductive CStep (E : Type) (lres : Option E) (lcount : Nat) (ctxDone : Bool) (ctxe : E) :
    CState E → CState E → Prop where
  | start_loaded (s : CState E) (i : Nat)
      (hi : s.threads[i]? = some .start) (hl : s.loaded = true) :
      CStep E lres lcount ctxDone ctxe s
        { s with threads := s.threads.set i (.done none) }
  | start_wait (s : CState E) (i : Nat)
      (hi : s.threads[i]? = some .start) (hl : s.loaded = false)
      (hg : s.loading = true) :
      CStep E lres lcount ctxDone ctxe s
        { s with threads := s.threads.set i .wait }
  | start_claim (s : CState E) (i : Nat)
      (hi : s.threads[i]? = some .start) (hl : s.loaded = false)
      (hg : s.loading = false) :
      CStep E lres lcount ctxDone ctxe s
        { s with loading := true, threads := s.threads.set i .load }
  | run_load (s : CState E) (i : Nat)
      (hi : s.threads[i]? = some .load) :
      CStep E lres lcount ctxDone ctxe s
        { s with count := s.count + lcount, threads := s.threads.set i (.finish lres) }
  | finish_ok (s : CState E) (i : Nat)
      (hi : s.threads[i]? = some (.finish none)) :
      CStep E lres lcount ctxDone ctxe s
        { s with loading := false, loaded := true, ready := true,
                 threads := s.threads.set i (.done none) }
  | finish_err (s : CState E) (i : Nat) (e : E)
      (hi : s.threads[i]? = some (.finish (some e))) :
      CStep E lres lcount ctxDone ctxe s
        { s with loading := false, lastError := some e,
                 threads := s.threads.set i (.done (some e)) }
  | wait_poll (s : CState E) (i : Nat)
      (hi : s.threads[i]? = some .wait) (hg : s.loading = true) :
      CStep E lres lcount ctxDone ctxe s s
  | wait_exit (s : CState E) (i : Nat)
      (hi : s.threads[i]? = some .wait) (hg : s.loading = false) :
      CStep E lres lcount ctxDone ctxe s
        { s with threads :=
            s.threads.set i (.done (if s.loaded = true then none else s.lastError)) }
  | wait_cancel (s : CState E) (i : Nat)
      (hi : s.threads[i]? = some .wait) (hc : ctxDone = true) :
      CStep E lres lcount ctxDone ctxe s
        { s with threads := s.threads.set i (.done (some ctxe)) }

/-- The loader's `loadWithRetry` outcome as the model sees it: the Go
error value it returns (and records) together with its `LoadFunc`
invocation count. -/
def loaderOutcome (cfg : RunConfig) (cancelled : Nat → Bool) (load : Nat → Option ε) :
    Option (ε ⊕ Unit) × Nat :=
  (retryErr (loadWithRetry cfg cancelled load).1, (loadWithRetry cfg cancelled load).2)

/-- Invariant of the interleaving model in the always-succeeding
instantiation (`lres = none`, `lcount = 1`, context never done): the
system is always in one of three phases — nobody has claimed the
loader role yet, a unique loader is active (everyone else still
entering or waiting), or the single load has completed successfully. -/
def CInv (E : Type) (K : Nat) (s : CState E) : Prop :=
  s.threads.length = K ∧
  ((s.loading = false ∧ s.loaded = false ∧ s.lastError = none ∧ s.count = 0
      ∧ ∀ (j : Nat) (p : Phase E), s.threads[j]? = some p → p = Phase.start)
   ∨ (s.loading = true ∧ s.loaded = false ∧ s.lastError = none
      ∧ ∃ i : Nat, (s.threads[i]? = some Phase.load ∧ s.count = 0
              ∨ s.threads[i]? = some (Phase.finish none) ∧ s.count = 1)
          ∧ ∀ (j : Nat) (p : Phase E), j ≠ i → s.threads[j]? = some p →
              p = Phase.start ∨ p = Phase.wait)
   ∨ (s.loading = false ∧ s.loaded = true ∧ s.lastError = none ∧ s.count = 1
      ∧ ∀ (j : Nat) (p : Phase E), s.threads[j]? = some p →
          p = Phase.start ∨ p = Phase.wait ∨ p = Phase.done none))

end Ghappsetup

/-!
Theorems.  Helper lemmas come first, then one theorem (plus witness /
counterexample where required) per claim.
-/

namespace Configwait

/-- Helper: when every attempt fails and the context is never cancelled,
the loop runs all remaining attempts and returns the last error. -/
theorem retryLoop_allFail (err : Nat → ε) (cancelled : Nat → Bool)
    (hc : ∀ k, cancelled k = false) :
    ∀ (r attempt : Nat) (lastErr : Option ε) (cnt : Nat),
      retryLoop (fun k => some (err k)) cancelled attempt (r + 1) lastErr cnt
        = (.opErr (err (attempt + r)), cnt + (r + 1)) := by
  intro r
  induction r with
  | zero =>
      intro attempt lastErr cnt
      rw [retryLoop.eq_3]
      simp
  | succ n ih =>
      intro attempt lastErr cnt
      rw [retryLoop.eq_3]
      have h1 : attempt + 1 + n = attempt + (n + 1) := by omega
      have h2 : cnt + 1 + (n + 1) = cnt + (n + 1 + 1) := by omega
      simp [hc, ih, h1, h2]

/-- Helper: if the first `t + 1` attempts starting at `attempt` fail, no
earlier wait is cancelled, the wait after attempt `attempt + t` is
cancelled, and at least `t + 2` loop iterations remain, the loop stops
with the cancellation error after exactly `t + 1` invocations. -/
theorem retryLoop_cancel_during_wait (load : Nat → Option ε) (cancelled : Nat → Bool) :
    ∀ (t attempt r : Nat) (lastErr : Option ε) (cnt : Nat),
      (∀ j, j ≤ t → (load (attempt + j)).isSome = true) →
      (∀ j, j < t → cancelled (attempt + j) = false) →
      cancelled (attempt + t) = true →
      t + 2 ≤ r →
      retryLoop load cancelled attempt r lastErr cnt = (.ctxErr, cnt + t + 1) := by
  intro t
  induction t with
  | zero =>
      intro attempt r lastErr cnt hf hnc hcanc hr
      obtain ⟨r', rfl⟩ : ∃ r', r = r' + 1 + 1 := ⟨r - 2, by omega⟩
      obtain ⟨e, he⟩ := Option.isSome_iff_exists.mp (hf 0 (Nat.le_refl 0))
      rw [Nat.add_zero] at he
      rw [Nat.add_zero] at hcanc
      simp [retryLoop, he, hcanc]
  | succ t ih =>
      intro attempt r lastErr cnt hf hnc hcanc hr
      obtain ⟨r', rfl⟩ : ∃ r', r = r' + 1 := ⟨r - 1, by omega⟩
      obtain ⟨e, he⟩ := Option.isSome_iff_exists.mp (hf 0 (Nat.zero_le _))
      rw [Nat.add_zero] at he
      have hc0 : cancelled attempt = false := by
        have := hnc 0 (Nat.succ_pos t)
        rwa [Nat.add_zero] at this
      have hr' : r' ≠ 0 := by omega
      have hrec := ih (attempt + 1) r' (some e) (cnt + 1)
        (fun j hj => by
          have := hf (j + 1) (by omega)
          rwa [show attempt + (j + 1) = attempt + 1 + j by omega] at this)
        (fun j hj => by
          have := hnc (j + 1) (by omega)
          rwa [show attempt + (j + 1) = attempt + 1 + j by omega] at this)
        (by rwa [show attempt + (t + 1) = attempt + 1 + t by omega] at hcanc)
        (by omega)
      have h2 : cnt + 1 + t + 1 = cnt + (t + 1) + 1 := by omega
      simp [retryLoop, he, hr', hc0, hrec, h2]

end Configwait

/-- C2: for every retry policy with `MaxAttempts = n ≥ 1` and every
operation failing on all attempts (no cancellation), both
`configwait.Wait` and `Runtime.loadWithRetry` invoke the operation
exactly `n` times and return the `n`-th attempt's error verbatim — the
identical `ε` value, not wrapped. -/
theorem retry_exhaustion_returns_final_error_verbatim
    (ε : Type) (cfg : Configwait.Config) (rcfg : Ghappsetup.RunConfig)
    (err : Nat → ε) (cancelled : Nat → Bool) (n : Nat)
    (hc : ∀ k, cancelled k = false) (hn : 1 ≤ n)
    (hcfg : cfg.MaxRetries = (n : Int)) (hrcfg : rcfg.MaxRetries = (n : Int)) :
    Configwait.Wait cfg cancelled (fun k => some (err k)) = (.opErr (err n), n)
    ∧ Ghappsetup.loadWithRetry rcfg cancelled (fun k => some (err k)) = (.opErr (err n), n) := by
  obtain ⟨m, rfl⟩ := Nat.exists_eq_add_of_le hn
  have ht : ((1 + m : Nat) : Int).toNat = m + 1 := by omega
  have key := Configwait.retryLoop_allFail err cancelled hc m 1 none 0
  have h1 : (1 : Nat) + m = 1 + m := rfl
  constructor
  · simp only [Configwait.Wait, hcfg, ht, key]
    simp [Nat.add_comm]
  · simp only [Ghappsetup.loadWithRetry, hrcfg, ht, key]
    simp [Nat.add_comm]

/-- C2 witness: three always-failing attempts with `MaxRetries = 3`
return the third error after exactly three invocations. -/
theorem retry_exhaustion_witness :
    Configwait.Wait ⟨3, 0⟩ (fun _ => false) (fun k => some k) = (.opErr 3, 3)
    ∧ Ghappsetup.loadWithRetry ⟨true, 3, 0⟩ (fun _ => false) (fun k => some k) = (.opErr 3, 3) :=
  retry_exhaustion_returns_final_error_verbatim Nat ⟨3, 0⟩ ⟨true, 3, 0⟩
    (fun k => k) (fun _ => false) 3 (fun _ => rfl) (by decide) rfl rfl

/-- C3: if attempts `1 .. k` fail, more attempts remain
(`k + 1 ≤ MaxRetries`), and cancellation fires during the wait after
attempt `k` (and during no earlier wait), then both `configwait.Wait`
and `Runtime.loadWithRetry` return the cancellation error — not the
last operation error — after exactly `k` invocations, making no
further attempts. -/
theorem retry_cancellation_precedence
    (ε : Type) (cfg : Configwait.Config) (rcfg : Ghappsetup.RunConfig)
    (load : Nat → Option ε) (cancelled : Nat → Bool) (k : Nat)
    (hk : 1 ≤ k)
    (hmore : (k : Int) + 1 ≤ cfg.MaxRetries)
    (hmore2 : (k : Int) + 1 ≤ rcfg.MaxRetries)
    (hf : ∀ j, 1 ≤ j → j ≤ k → (load j).isSome = true)
    (hnc : ∀ j, j < k → cancelled j = false)
    (hcanc : cancelled k = true) :
    Configwait.Wait cfg cancelled load = (.ctxErr, k)
    ∧ Ghappsetup.loadWithRetry rcfg cancelled load = (.ctxErr, k) := by
  obtain ⟨t, rfl⟩ := Nat.exists_eq_add_of_le hk
  have key : ∀ r : Nat, 1 + t + 1 ≤ r →
      Configwait.retryLoop load cancelled 1 r none 0 = (.ctxErr, 1 + t) := by
    intro r hr
    have := Configwait.retryLoop_cancel_during_wait load cancelled t 1 r none 0
      (fun j hj => hf (1 + j) (by omega) (by omega))
      (fun j hj => hnc (1 + j) (by omega))
      hcanc (by omega)
    rwa [show 0 + t + 1 = 1 + t by omega] at this
  constructor
  · exact key cfg.MaxRetries.toNat (by omega)
  · exact key rcfg.MaxRetries.toNat (by omega)

/-- C3 witness: attempt 1 fails, `MaxRetries = 3`, cancellation fires
during the first inter-attempt wait: the cancellation error is
returned after one invocation. -/
theorem retry_cancellation_witness :
    Configwait.Wait ⟨3, 0⟩ (fun j => j == 1) (fun _ => some 0) = (.ctxErr, 1)
    ∧ Ghappsetup.loadWithRetry ⟨true, 3, 0⟩ (fun j => j == 1) (fun _ => some 0) = (.ctxErr, 1) :=
  retry_cancellation_precedence Nat ⟨3, 0⟩ ⟨true, 3, 0⟩ (fun _ => some 0)
    (fun j => j == 1) 1 (Nat.le_refl 1) (by decide) (by decide)
    (fun _ _ _ => rfl)
    (fun j hj => by
      have : j = 0 := by omega
      subst this; rfl)
    rfl

/-- C7 counterexample: `NewRuntime` accepts `MaxRetries = -1` without
rejection and keeps it unchanged, so the retry loader runs with a
non-positive attempt bound; such a run performs zero attempts and
returns success even though the operation always fails. -/
theorem newRuntime_accepts_nonpositive_maxRetries :
    Ghappsetup.newRuntimeConfig ⟨true, -1, 1⟩ .http = some ⟨true, -1, 1⟩
    ∧ ¬ ((1 : Int) ≤ -1)
    ∧ Configwait.Wait ⟨-1, 1⟩ (fun _ => false) (fun _ => some 0) = (.ok, 0)
    ∧ Ghappsetup.loadWithRetry ⟨true, -1, 1⟩ (fun _ => false) (fun _ => some 0) = (.ok, 0) := by
  refine ⟨by decide, by decide, rfl, rfl⟩

/-- C7 amended: construction rejects only a missing `LoadFunc`.  A zero
`MaxRetries` is replaced by the environment default (5 for Lambda, 30
for HTTP, both ≥ 1); every nonzero value — negative values included —
is passed through unchanged, so the effective bound is ≥ 1 whenever
the supplied one is ≥ 0; and running the retry loader with a
non-positive bound performs zero attempts and returns success. -/
theorem newRuntime_maxRetries_normalisation
    (ε : Type) (cfg : Ghappsetup.RunConfig) (env : Ghappsetup.Environment)
    (h : cfg.hasLoadFunc = true) :
    (∃ c, Ghappsetup.newRuntimeConfig cfg env = some c
        ∧ c.MaxRetries
            = (if cfg.MaxRetries = 0 then
                 (match env with
                  | .lambda => Ghappsetup.defaultLambdaMaxRetries
                  | .http => Ghappsetup.defaultHTTPMaxRetries)
               else cfg.MaxRetries)
        ∧ (0 ≤ cfg.MaxRetries → 1 ≤ c.MaxRetries))
    ∧ ∀ (m i : Int) (cancelled : Nat → Bool) (load : Nat → Option ε),
        m ≤ 0 → Configwait.Wait ⟨m, i⟩ cancelled load = (.ok, 0) := by
  constructor
  · simp only [Ghappsetup.newRuntimeConfig, h, Bool.true_eq_false, if_false]
    refine ⟨_, rfl, rfl, ?_⟩
    intro h0
    by_cases hz : cfg.MaxRetries = 0
    · simp only [hz, if_pos rfl]
      cases env <;> simp [Ghappsetup.defaultLambdaMaxRetries, Ghappsetup.defaultHTTPMaxRetries]
    · simp only [if_neg hz]
      omega
  · intro m i cancelled load hm
    have : m.toNat = 0 := by omega
    simp [Configwait.Wait, this, Configwait.retryLoop]

/-- C7 amended witness: a Lambda-environment construction with
`MaxRetries = 0` yields the default bound 5, which is ≥ 1. -/
theorem newRuntime_maxRetries_normalisation_witness :
    ∃ c, Ghappsetup.newRuntimeConfig ⟨true, 0, 7⟩ .lambda = some c
        ∧ c.MaxRetries = 5 ∧ 1 ≤ c.MaxRetries := by
  obtain ⟨⟨c, hc, hm, hge⟩, -⟩ :=
    newRuntime_maxRetries_normalisation Nat ⟨true, 0, 7⟩ .lambda rfl
  refine ⟨c, hc, ?_, hge (by decide)⟩
  simpa [Ghappsetup.defaultLambdaMaxRetries] using hm

namespace Configwait

/-- Helper: `isAllowedPath` returns `true` exactly on the paths the spec
describes — exact match for the root prefix, prefix match otherwise. -/
theorem isAllowedPath_iff_allowedBySpec (allowedPaths : List String) (path : String) :
    isAllowedPath allowedPaths path = true ↔ allowedBySpec allowedPaths path := by
  induction allowedPaths with
  | nil => simp [isAllowedPath, allowedBySpec]
  | cons a rest ih =>
      by_cases ha : a = "/"
      · subst ha
        by_cases hp : path = "/"
        · simp [isAllowedPath, allowedBySpec, hp]
        · simp [isAllowedPath, allowedBySpec, hp, ih]
      · by_cases hpre : hasPrefix a path = true
        · simp [isAllowedPath, allowedBySpec, ha, hpre]
        · simp [isAllowedPath, allowedBySpec, ha, hpre, ih]

end Configwait

/-- C4: full case analysis of `ReadyGate.ServeHTTP`.  An allow-listed
path (exact match for the root prefix, prefix match otherwise) is
forwarded to the current handler, or answered with the 503
`service starting up` JSON response when no handler exists; a
non-allow-listed path on a non-ready gate gets the 503
`service not ready, configuration loading` response whether or not a
handler exists; once ready, every path is forwarded to the handler,
with the 503 `service starting up` response only when the handler is
absent.  Every 503 carries `Retry-After: 5` and the
`service_unavailable` JSON body. -/
theorem readyGate_dispatch_cases (η : Type) (allowedPaths : List String)
    (ready : Bool) (handler : Option η) (path : String) :
    (Configwait.allowedBySpec allowedPaths path →
       (∀ h, handler = some h →
          Configwait.ServeHTTP allowedPaths ready handler path = .forwarded h)
       ∧ (handler = none →
          Configwait.ServeHTTP allowedPaths ready handler path
            = .respond { status := 503, contentType := "application/json", retryAfter := "5",
                         bodyJson := [("error", "service_unavailable"),
                                      ("message", "service starting up")] }))
    ∧ (¬ Configwait.allowedBySpec allowedPaths path → ready = false →
        Configwait.ServeHTTP allowedPaths ready handler path
          = .respond { status := 503, contentType := "application/json", retryAfter := "5",
                       bodyJson := [("error", "service_unavailable"),
                                    ("message", "service not ready, configuration loading")] })
    ∧ (ready = true →
       (∀ h, handler = some h →
          Configwait.ServeHTTP allowedPaths ready handler path = .forwarded h)
       ∧ (handler = none →
          Configwait.ServeHTTP allowedPaths ready handler path
            = .respond { status := 503, contentType := "application/json", retryAfter := "5",
                         bodyJson := [("error", "service_unavailable"),
                                      ("message", "service starting up")] })) := by
  refine ⟨?_, ?_, ?_⟩
  · intro hallow
    have hA : Configwait.isAllowedPath allowedPaths path = true :=
      (Configwait.isAllowedPath_iff_allowedBySpec allowedPaths path).mpr hallow
    constructor
    · intro h hh
      simp [Configwait.ServeHTTP, hA, hh]
    · intro hh
      simp [Configwait.ServeHTTP, hA, hh, Configwait.serveUnavailable]
  · intro hallow hr
    have hA : Configwait.isAllowedPath allowedPaths path = false := by
      rcases hb : Configwait.isAllowedPath allowedPaths path with _ | _
      · rfl
      · exact absurd ((Configwait.isAllowedPath_iff_allowedBySpec allowedPaths path).mp hb) hallow
    simp [Configwait.ServeHTTP, hA, hr, Configwait.serveUnavailable]
  · intro hr
    constructor
    · intro h hh
      by_cases hA : Configwait.isAllowedPath allowedPaths path = true
      · simp [Configwait.ServeHTTP, hA, hh]
      · simp [Configwait.ServeHTTP, hA, hr, hh]
    · intro hh
      by_cases hA : Configwait.isAllowedPath allowedPaths path = true
      · simp [Configwait.ServeHTTP, hA, hh, Configwait.serveUnavailable]
      · simp [Configwait.ServeHTTP, hA, hr, hh, Configwait.serveUnavailable]

/-- C4 witness: with allow-list `[/setup]` and a present handler, a
non-allow-listed path on a non-ready gate yields the
`service not ready` 503, and an allow-listed path is forwarded. -/
theorem readyGate_dispatch_witness :
    Configwait.ServeHTTP ["/setup"] false (some 0) "/api/data"
      = .respond { status := 503, contentType := "application/json", retryAfter := "5",
                   bodyJson := [("error", "service_unavailable"),
                                ("message", "service not ready, configuration loading")] }
    ∧ Configwait.ServeHTTP ["/setup"] false (some 0) "/setup/callback" = .forwarded 0 := by
  constructor
  · refine (readyGate_dispatch_cases Nat ["/setup"] false (some 0) "/api/data").2.1 ?_ rfl
    intro hc
    have h := (Configwait.isAllowedPath_iff_allowedBySpec ["/setup"] "/api/data").mpr hc
    exact absurd h (by decide)
  · exact ((readyGate_dispatch_cases Nat ["/setup"] false (some 0) "/setup/callback").1
      ⟨"/setup", by simp, Or.inr ⟨by decide, by decide⟩⟩).1 0 rfl

namespace Configwait

/-- Helper: a capacity-1 channel keeps at most one queued token under
any sequence of trigger and receive events. -/
theorem runOps_capacity_invariant :
    ∀ (ops : List ChanOp) (c : TokenChan), c.cap = 1 → c.queued ≤ 1 →
      (runOps c ops).cap = 1 ∧ (runOps c ops).queued ≤ 1 := by
  intro ops
  induction ops with
  | nil => intro c h1 h2; exact ⟨h1, h2⟩
  | cons op rest ih =>
      intro c h1 h2
      have hstep : (applyOp c op).cap = 1 ∧ (applyOp c op).queued ≤ 1 := by
        cases op
        · show (trySend c).cap = 1 ∧ (trySend c).queued ≤ 1
          unfold trySend
          by_cases hlt : c.queued < c.cap
          · rw [if_pos hlt]
            exact ⟨h1, by show c.queued + 1 ≤ 1; omega⟩
          · rw [if_neg hlt]
            exact ⟨h1, h2⟩
        · show (recvToken c).cap = 1 ∧ (recvToken c).queued ≤ 1
          unfold recvToken
          by_cases hpos : 0 < c.queued
          · rw [if_pos hpos]
            exact ⟨h1, by show c.queued - 1 ≤ 1; omega⟩
          · rw [if_neg hpos]
            exact ⟨h1, h2⟩
      have hrw : runOps c (op :: rest) = runOps (applyOp c op) rest := rfl
      rw [hrw]
      exact ih (applyOp c op) hstep.1 hstep.2

end Configwait

/-- C9: the pending-reload signal is a single-slot coalescing mechanism.
Starting from the capacity-1 channel made by `NewRuntime` /
`NewReloader`, any sequence of triggers and listener receives leaves
at most one queued token; a trigger (through either
`Runtime.ReloadCallback`'s closure or `Reloader.Trigger`) on an empty
slot places the one token, and a trigger on a full slot changes
nothing — and being a total function of the state, it never blocks
the caller. -/
theorem reload_trigger_single_slot_coalescing :
    (∀ ops : List Configwait.ChanOp,
       (Configwait.runOps Configwait.newReloadCh ops).queued ≤ 1)
    ∧ (∀ c : Configwait.TokenChan, c.cap = 1 → c.queued = 0 →
        Configwait.reloadCallbackTrigger c = { c with queued := 1 }
        ∧ Configwait.reloaderTrigger c = { c with queued := 1 })
    ∧ (∀ c : Configwait.TokenChan, c.cap = 1 → 1 ≤ c.queued →
        Configwait.reloadCallbackTrigger c = c
        ∧ Configwait.reloaderTrigger c = c) := by
  refine ⟨?_, ?_, ?_⟩
  · intro ops
    exact (Configwait.runOps_capacity_invariant ops Configwait.newReloadCh rfl
      (by simp [Configwait.newReloadCh])).2
  · intro c h1 h2
    have hlt : c.queued < c.cap := by omega
    have hsend : Configwait.trySend c = { c with queued := 1 } := by
      unfold Configwait.trySend
      rw [if_pos hlt, h2]
    exact ⟨hsend, hsend⟩
  · intro c h1 h2
    have hnot : ¬ c.queued < c.cap := by omega
    have hsend : Configwait.trySend c = c := by
      unfold Configwait.trySend
      rw [if_neg hnot]
    exact ⟨hsend, hsend⟩

/-- C9 witness: three rapid triggers from empty leave exactly one queued
token; after a receive, one more trigger refills the single slot. -/
theorem reload_trigger_witness :
    (Configwait.runOps Configwait.newReloadCh
      [.trigger, .trigger, .trigger]).queued ≤ 1
    ∧ Configwait.reloadCallbackTrigger ⟨1, 0⟩ = ⟨1, 1⟩
    ∧ Configwait.reloaderTrigger ⟨1, 1⟩ = ⟨1, 1⟩ := by
  refine ⟨reload_trigger_single_slot_coalescing.1 [.trigger, .trigger, .trigger],
    (reload_trigger_single_slot_coalescing.2.1 ⟨1, 0⟩ rfl rfl).1,
    (reload_trigger_single_slot_coalescing.2.2 ⟨1, 1⟩ rfl (by decide)).2⟩

namespace Ghappsetup

/-- Helper: with an always-succeeding operation and at least one allowed
attempt, `loadWithRetry` succeeds after exactly one invocation. -/
theorem loadWithRetry_firstSuccess (cfg : RunConfig) (cancelled : Nat → Bool)
    (load : Nat → Option ε) (hload : ∀ k, load k = none) (hmr : 1 ≤ cfg.MaxRetries) :
    loadWithRetry cfg cancelled load = (.ok, 1) := by
  obtain ⟨m, hm⟩ : ∃ m, cfg.MaxRetries.toNat = m + 1 :=
    ⟨cfg.MaxRetries.toNat - 1, by omega⟩
  unfold loadWithRetry
  rw [hm, Configwait.retryLoop.eq_3]
  simp [hload]

/-- Helper: the fast path — a loaded state returns success at once with
no invocation and no state change. -/
theorem ensureLoaded_fast_path (cfg : RunConfig) (cancelled : Nat → Bool)
    (load : Nat → Option ε) (s : RtState ε) (h : s.loaded = true) :
    EnsureLoaded cfg cancelled load s = (.ret none, s, 0) := by
  simp [EnsureLoaded, h]

/-- Helper: iterating sequential calls from a loaded state changes
nothing, succeeds every time, and never invokes the operation. -/
theorem ensureLoadedRepeat_loaded (cfg : RunConfig) (cancelled : Nat → Bool)
    (load : Nat → Option ε) (s : RtState ε) (h : s.loaded = true) :
    ∀ N, ensureLoadedRepeat cfg cancelled load N s = (s, 0, true) := by
  intro N
  induction N with
  | zero => rfl
  | succ n ih =>
      show (let step := EnsureLoaded cfg cancelled load s
            let rest := ensureLoadedRepeat cfg cancelled load n step.2.1
            (rest.1, step.2.2 + rest.2.1,
              (match step.1 with
               | .ret none => true
               | _ => false) && rest.2.2)) = (s, 0, true)
      rw [ensureLoaded_fast_path cfg cancelled load s h]
      simpa using ih

end Ghappsetup

/-- C5: with an always-succeeding `LoadFunc` and `MaxRetries ≥ 1`,
calling `EnsureLoaded` sequentially `N + 1` times from a fresh runtime
invokes `LoadFunc` exactly once in total — the first call loads, every
later call takes the fast path — and every call returns success. -/
theorem ensureLoaded_idempotent_success
    (ε : Type) (cfg : Ghappsetup.RunConfig) (cancelled : Nat → Bool)
    (load : Nat → Option ε) (hasGate : Bool) (N : Nat)
    (hload : ∀ k, load k = none) (hmr : 1 ≤ cfg.MaxRetries) :
    (Ghappsetup.ensureLoadedRepeat cfg cancelled load (N + 1)
        (Ghappsetup.initialRtState ε hasGate)).2.1 = 1
    ∧ (Ghappsetup.ensureLoadedRepeat cfg cancelled load (N + 1)
        (Ghappsetup.initialRtState ε hasGate)).2.2 = true := by
  have hfirst :
      Ghappsetup.EnsureLoaded cfg cancelled load (Ghappsetup.initialRtState ε hasGate)
        = (.ret none,
           Ghappsetup.setReady
             { Ghappsetup.initialRtState ε hasGate with loading := false, loaded := true } true,
           1) := by
    rw [Ghappsetup.EnsureLoaded]
    simp only [Ghappsetup.initialRtState, Bool.false_eq_true, if_false]
    rw [Ghappsetup.loadWithRetry_firstSuccess cfg cancelled load hload hmr]
  have hloaded :
      (Ghappsetup.setReady
        { Ghappsetup.initialRtState ε hasGate with loading := false, loaded := true } true).loaded
        = true := rfl
  have hrest := Ghappsetup.ensureLoadedRepeat_loaded cfg cancelled load _ hloaded N
  show (let step := Ghappsetup.EnsureLoaded cfg cancelled load (Ghappsetup.initialRtState ε hasGate)
        let rest := Ghappsetup.ensureLoadedRepeat cfg cancelled load N step.2.1
        (rest.1, step.2.2 + rest.2.1,
          (match step.1 with
           | .ret none => true
           | _ => false) && rest.2.2)).2.1 = 1
      ∧ (let step := Ghappsetup.EnsureLoaded cfg cancelled load (Ghappsetup.initialRtState ε hasGate)
         let rest := Ghappsetup.ensureLoadedRepeat cfg cancelled load N step.2.1
         (rest.1, step.2.2 + rest.2.1,
           (match step.1 with
            | .ret none => true
            | _ => false) && rest.2.2)).2.2 = true
  rw [hfirst]
  refine ⟨?_, ?_⟩ <;> simp [hrest]

/-- C5 witness: three sequential calls on a fresh Lambda-style runtime
with an immediately succeeding load make exactly one invocation. -/
theorem ensureLoaded_idempotent_witness :
    (Ghappsetup.ensureLoadedRepeat ⟨true, 1, 0⟩ (fun _ => false)
        (fun _ => (none : Option Nat)) 3 (Ghappsetup.initialRtState Nat false)).2.1 = 1
    ∧ (Ghappsetup.ensureLoadedRepeat ⟨true, 1, 0⟩ (fun _ => false)
        (fun _ => (none : Option Nat)) 3 (Ghappsetup.initialRtState Nat false)).2.2 = true :=
  ensureLoaded_idempotent_success Nat ⟨true, 1, 0⟩ (fun _ => false)
    (fun _ => none) false 2 (fun _ => rfl) (by decide)

/-- C6: the code does not make a failed load terminal.  With
`MaxRetries = 1` and an always-failing `LoadFunc`, the first
sequential `EnsureLoaded` call fails after one invocation and leaves
`loaded = false`, `loading = false`, `lastError` set; the second call
then re-invokes `LoadFunc` (one further invocation — two in total)
instead of returning the recorded error without re-invoking, contrary
to the documented `Done(err)`-is-terminal behaviour. -/
theorem ensureLoaded_reinvokes_after_failure :
    (Ghappsetup.ensureLoadedRepeat ⟨true, 1, 0⟩ (fun _ => false)
        (fun _ => some 0) 2 (Ghappsetup.initialRtState Nat false)).2.1 = 2
    ∧ (Ghappsetup.EnsureLoaded ⟨true, 1, 0⟩ (fun _ => false) (fun _ => some (0 : Nat))
        (Ghappsetup.initialRtState Nat false)).2.1.loaded = false
    ∧ (Ghappsetup.EnsureLoaded ⟨true, 1, 0⟩ (fun _ => false) (fun _ => some (0 : Nat))
        (Ghappsetup.initialRtState Nat false)).2.1.lastError = some (Sum.inl 0)
    ∧ (Ghappsetup.EnsureLoaded ⟨true, 1, 0⟩ (fun _ => false) (fun _ => some (0 : Nat))
        ((Ghappsetup.EnsureLoaded ⟨true, 1, 0⟩ (fun _ => false) (fun _ => some 0)
            (Ghappsetup.initialRtState Nat false)).2.1)).2.2 = 1 := by
  refine ⟨rfl, rfl, rfl, rfl⟩

namespace Ghappsetup

/-- Helper: every run of the retry loop with at least one allowed
attempt performs at least one invocation. -/
theorem retryLoop_count_pos (load : Nat → Option ε) (cancelled : Nat → Bool) :
    ∀ (r attempt : Nat) (lastErr : Option ε) (cnt : Nat),
      cnt + 1 ≤ (Configwait.retryLoop load cancelled attempt (r + 1) lastErr cnt).2 := by
  intro r
  induction r with
  | zero =>
      intro attempt lastErr cnt
      rw [Configwait.retryLoop.eq_3]
      cases load attempt <;> simp
  | succ n ih =>
      intro attempt lastErr cnt
      rw [Configwait.retryLoop.eq_3]
      cases hl : load attempt with
      | none => simp
      | some e =>
          simp only [Nat.succ_ne_zero, if_false]
          cases hc : cancelled attempt with
          | true => simp
          | false =>
              simp only [Bool.false_eq_true, if_false]
              calc cnt + 1 ≤ cnt + 1 + 1 := by omega
                _ ≤ _ := ih (attempt + 1) (some e) (cnt + 1)

/-- Helper: from a state that is neither loaded nor loading, a
sequential `EnsureLoaded` call performs exactly the invocations of one
`loadWithRetry` run. -/
theorem ensureLoaded_runs_loader (cfg : RunConfig) (cancelled : Nat → Bool)
    (load : Nat → Option ε) (s : RtState ε)
    (h1 : s.loaded = false) (h2 : s.loading = false) :
    (EnsureLoaded cfg cancelled load s).2.2 = (loadWithRetry cfg cancelled load).2 := by
  rw [EnsureLoaded]
  simp only [h1, h2, Bool.false_eq_true, if_false]
  rcases hlr : loadWithRetry cfg cancelled load with ⟨res, c⟩
  cases res <;> simp

end Ghappsetup

/-- C8: after `ResetLoadState` on a runtime whose guard is loaded, the
guard behaves as `NotStarted`: the recorded error is cleared,
`IsReady` reports `false`, the `loaded` flag is cleared, and the next
`EnsureLoaded` call re-invokes `LoadFunc` (at least one invocation
through `loadWithRetry`). -/
theorem resetLoadState_returns_to_notStarted
    (ε : Type) (cfg : Ghappsetup.RunConfig) (cancelled : Nat → Bool)
    (load : Nat → Option ε) (s : Ghappsetup.RtState ε)
    (hmr : 1 ≤ cfg.MaxRetries) (_hloaded : s.loaded = true) :
    (Ghappsetup.ResetLoadState s).loaded = false
    ∧ (Ghappsetup.ResetLoadState s).lastError = none
    ∧ Ghappsetup.IsReady (Ghappsetup.ResetLoadState s) = false
    ∧ 1 ≤ (Ghappsetup.EnsureLoaded cfg cancelled load (Ghappsetup.ResetLoadState s)).2.2 := by
  refine ⟨rfl, rfl, rfl, ?_⟩
  rw [Ghappsetup.ensureLoaded_runs_loader cfg cancelled load _ rfl rfl]
  obtain ⟨m, hm⟩ : ∃ m, cfg.MaxRetries.toNat = m + 1 :=
    ⟨cfg.MaxRetries.toNat - 1, by omega⟩
  unfold Ghappsetup.loadWithRetry
  rw [hm]
  exact Ghappsetup.retryLoop_count_pos load cancelled m 1 none 0

/-- C8 witness: resetting a loaded, ready runtime clears its flags and
the next call invokes the load operation. -/
theorem resetLoadState_witness :
    (Ghappsetup.ResetLoadState
        (⟨false, true, none, true, false, false⟩ : Ghappsetup.RtState Nat)).loaded = false
    ∧ (Ghappsetup.ResetLoadState
        (⟨false, true, none, true, false, false⟩ : Ghappsetup.RtState Nat)).lastError = none
    ∧ Ghappsetup.IsReady (Ghappsetup.ResetLoadState
        (⟨false, true, none, true, false, false⟩ : Ghappsetup.RtState Nat)) = false
    ∧ 1 ≤ (Ghappsetup.EnsureLoaded ⟨true, 1, 0⟩ (fun _ => false) (fun _ => (none : Option Nat))
        (Ghappsetup.ResetLoadState
          (⟨false, true, none, true, false, false⟩ : Ghappsetup.RtState Nat))).2.2 :=
  resetLoadState_returns_to_notStarted Nat ⟨true, 1, 0⟩ (fun _ => false) (fun _ => none)
    ⟨false, true, none, true, false, false⟩ (by decide) rfl

/-- C10: `ResetLoadState` clears only the runtime's own ready flag.  For
a server-environment runtime (gate present) that has become ready,
resetting makes `IsReady` report `false` while the gate's readiness
stays `true`, so the gate keeps forwarding every request — non-allow-
listed paths included — to the present handler instead of answering
503. -/
theorem resetLoadState_leaves_gate_ready
    (ε η : Type) (s : Ghappsetup.RtState ε) (hgate : s.hasGate = true)
    (allowedPaths : List String) (path : String) (h : η) :
    Ghappsetup.IsReady (Ghappsetup.ResetLoadState (Ghappsetup.setReady s true)) = false
    ∧ (Ghappsetup.ResetLoadState (Ghappsetup.setReady s true)).gateReady = true
    ∧ Configwait.ServeHTTP allowedPaths
        (Ghappsetup.ResetLoadState (Ghappsetup.setReady s true)).gateReady
        (some h) path
        = .forwarded h := by
  have hg : (Ghappsetup.ResetLoadState (Ghappsetup.setReady s true)).gateReady = true := by
    show (if true && s.hasGate then true else s.gateReady) = true
    rw [hgate]
    rfl
  refine ⟨rfl, hg, ?_⟩
  rw [hg]
  by_cases hA : Configwait.isAllowedPath allowedPaths path = true
  · simp [Configwait.ServeHTTP, hA]
  · simp [Configwait.ServeHTTP, hA]

/-- C10 witness: after marking ready and resetting, a non-allow-listed
path is still forwarded by the gate. -/
theorem resetLoadState_gate_witness :
    Ghappsetup.IsReady (Ghappsetup.ResetLoadState (Ghappsetup.setReady
        (Ghappsetup.initialRtState Nat true) true)) = false
    ∧ (Ghappsetup.ResetLoadState (Ghappsetup.setReady
        (Ghappsetup.initialRtState Nat true) true)).gateReady = true
    ∧ Configwait.ServeHTTP ["/setup"]
        (Ghappsetup.ResetLoadState (Ghappsetup.setReady
          (Ghappsetup.initialRtState Nat true) true)).gateReady
        (some 7) "/api/data"
        = .forwarded 7 :=
  resetLoadState_leaves_gate_ready Nat Nat (Ghappsetup.initialRtState Nat true) rfl
    ["/setup"] "/api/data" 7
namespace Ghappsetup

/-- Helper: an index currently holding a phase is in range, so updating
it stores the new phase. -/
theorem threads_set_self {E : Type} {l : List (Phase E)} {i : Nat} {p : Phase E}
    (h : l[i]? = some p) (x : Phase E) : (l.set i x)[i]? = some x := by
  have hlt : i < l.length := (List.getElem?_eq_some.mp h).1
  rw [List.getElem?_set]
  simp [hlt]

/-- Helper: reading an updated thread list yields the new phase at the
updated index and the old phase elsewhere. -/
theorem threads_set_cases {E : Type} {l : List (Phase E)} {i j : Nat} {pi p x : Phase E}
    (hi : l[i]? = some pi) (hj : (l.set i x)[j]? = some p) :
    (j = i ∧ p = x) ∨ (j ≠ i ∧ l[j]? = some p) := by
  by_cases hji : j = i
  · subst hji
    rw [threads_set_self hi x] at hj
    cases hj
    exact Or.inl ⟨rfl, rfl⟩
  · rw [List.getElem?_set_ne (Ne.symm hji)] at hj
    exact Or.inr ⟨hji, hj⟩

/-- Helper: the initial state satisfies the invariant (pre-claim phase). -/
theorem CInv_init (E : Type) (K : Nat) : CInv E K (initCState E K) := by
  refine ⟨by simp [initCState], Or.inl ⟨rfl, rfl, rfl, rfl, ?_⟩⟩
  intro j p hj
  have hj' : (List.replicate K (Phase.start : Phase E))[j]? = some p := hj
  rw [List.getElem?_replicate] at hj'
  by_cases hjK : j < K
  · rw [if_pos hjK] at hj'
    cases hj'
    rfl
  · rw [if_neg hjK] at hj'
    cases hj'

/-- Helper: every step of the always-succeeding instantiation preserves
the invariant. -/
theorem CInv_step {E : Type} {K : Nat} {ctxe : E} {s s' : CState E}
    (hinv : CInv E K s) (hstep : CStep E none 1 false ctxe s s') : CInv E K s' := by
  obtain ⟨hlen, hphase⟩ := hinv
  cases hstep with
  | start_loaded i hi hl =>
      rcases hphase with ⟨-, h2, -, -, -⟩ | ⟨-, h2, -, -⟩ | ⟨h1, h2, h3, h4, hall⟩
      · rw [hl] at h2; cases h2
      · rw [hl] at h2; cases h2
      · refine ⟨by simpa using hlen, Or.inr (Or.inr ⟨h1, h2, h3, h4, ?_⟩)⟩
        intro j p hj
        rcases threads_set_cases hi hj with ⟨-, hp⟩ | ⟨-, hj'⟩
        · exact Or.inr (Or.inr hp)
        · exact hall j p hj'
  | start_wait i hi hl hg =>
      rcases hphase with ⟨hp1, -, -, -, -⟩ | ⟨hp1, hp2, hp3, i0, hloader, hothers⟩ | ⟨-, hp2, -, -, -⟩
      · rw [hg] at hp1; cases hp1
      · have hii0 : i ≠ i0 := by
          intro hEq
          subst hEq
          rcases hloader with ⟨hl0, -⟩ | ⟨hl0, -⟩ <;> (rw [hi] at hl0; cases hl0)
        refine ⟨by simpa using hlen, Or.inr (Or.inl ⟨hp1, hp2, hp3, i0, ?_, ?_⟩)⟩
        · rcases hloader with ⟨hl0, hc⟩ | ⟨hl0, hc⟩
          · exact Or.inl ⟨(List.getElem?_set_ne hii0).trans hl0, hc⟩
          · exact Or.inr ⟨(List.getElem?_set_ne hii0).trans hl0, hc⟩
        · intro j p hji hj
          rcases threads_set_cases hi hj with ⟨-, hp⟩ | ⟨-, hj'⟩
          · exact Or.inr hp
          · exact hothers j p hji hj'
      · rw [hl] at hp2; cases hp2
  | start_claim i hi hl hg =>
      rcases hphase with ⟨hp1, hp2, hp3, hp4, hall⟩ | ⟨hp1, -, -, -⟩ | ⟨-, hp2, -, -, -⟩
      · refine ⟨by simpa using hlen,
          Or.inr (Or.inl ⟨rfl, hp2, hp3, i, Or.inl ⟨threads_set_self hi _, hp4⟩, ?_⟩)⟩
        intro j p hji hj
        rcases threads_set_cases hi hj with ⟨hEq, -⟩ | ⟨-, hj'⟩
        · exact absurd hEq hji
        · exact Or.inl (hall j p hj')
      · rw [hg] at hp1; cases hp1
      · rw [hl] at hp2; cases hp2
  | run_load i hi =>
      rcases hphase with ⟨-, -, -, -, hall⟩ | ⟨hp1, hp2, hp3, i0, hloader, hothers⟩ | ⟨-, -, -, -, hall⟩
      · have hc := hall i _ hi; cases hc
      · have hii0 : i = i0 := by
          by_contra hne
          rcases hothers i _ hne hi with h | h <;> cases h
        subst hii0
        have hcount : s.count = 0 := by
          rcases hloader with ⟨-, hc⟩ | ⟨hl0, -⟩
          · exact hc
          · rw [hi] at hl0; cases hl0
        refine ⟨by simpa using hlen, Or.inr (Or.inl ⟨hp1, hp2, hp3, i,
          Or.inr ⟨threads_set_self hi _, ?_⟩, ?_⟩)⟩
        · show s.count + 1 = 1
          rw [hcount]
        · intro j p hji hj
          rcases threads_set_cases hi hj with ⟨hEq, -⟩ | ⟨-, hj'⟩
          · exact absurd hEq hji
          · exact hothers j p hji hj'
      · rcases hall i _ hi with h | h | h <;> cases h
  | finish_ok i hi =>
      rcases hphase with ⟨-, -, -, -, hall⟩ | ⟨hp1, hp2, hp3, i0, hloader, hothers⟩ | ⟨-, -, -, -, hall⟩
      · have hc := hall i _ hi; cases hc
      · have hii0 : i = i0 := by
          by_contra hne
          rcases hothers i _ hne hi with h | h <;> cases h
        subst hii0
        have hcount : s.count = 1 := by
          rcases hloader with ⟨hl0, -⟩ | ⟨-, hc⟩
          · rw [hi] at hl0; cases hl0
          · exact hc
        refine ⟨by simpa using hlen, Or.inr (Or.inr ⟨rfl, rfl, hp3, hcount, ?_⟩)⟩
        intro j p hj
        rcases threads_set_cases hi hj with ⟨-, hp⟩ | ⟨hne, hj'⟩
        · exact Or.inr (Or.inr hp)
        · rcases hothers j p hne hj' with h | h
          · exact Or.inl h
          · exact Or.inr (Or.inl h)
      · rcases hall i _ hi with h | h | h <;> cases h
  | finish_err i e hi =>
      rcases hphase with ⟨-, -, -, -, hall⟩ | ⟨-, -, -, i0, hloader, hothers⟩ | ⟨-, -, -, -, hall⟩
      · have hc := hall i _ hi; cases hc
      · have hii0 : i = i0 := by
          by_contra hne
          rcases hothers i _ hne hi with h | h <;> cases h
        subst hii0
        rcases hloader with ⟨hl0, -⟩ | ⟨hl0, -⟩ <;> (rw [hi] at hl0; cases hl0)
      · rcases hall i _ hi with h | h | h <;> cases h
  | wait_poll i hi hg =>
      exact ⟨hlen, hphase⟩
  | wait_exit i hi hg =>
      rcases hphase with ⟨-, -, -, -, hall⟩ | ⟨hp1, -, -, -⟩ | ⟨hp1, hp2, hp3, hp4, hall⟩
      · have hc := hall i _ hi; cases hc
      · rw [hg] at hp1; cases hp1
      · have hval : (if s.loaded = true then (none : Option E) else s.lastError) = none := by
          rw [hp2]
          rfl
        refine ⟨by simpa using hlen, Or.inr (Or.inr ⟨hp1, hp2, hp3, hp4, ?_⟩)⟩
        intro j p hj
        rcases threads_set_cases hi hj with ⟨-, hp⟩ | ⟨-, hj'⟩
        · rw [hval] at hp
          exact Or.inr (Or.inr hp)
        · exact hall j p hj'
  | wait_cancel i hi hc =>
      cases hc

/-- Helper: the invariant holds in every state reachable from the
initial one in the always-succeeding instantiation. -/
theorem CInv_reach {E : Type} {K : Nat} {ctxe : E} {s : CState E}
    (h : Relation.ReflTransGen (CStep E none 1 false ctxe) (initCState E K) s) :
    CInv E K s := by
  induction h with
  | refl => exact CInv_init E K
  | tail _ hstep ih => exact CInv_step ih hstep

end Ghappsetup

/-- C1: exactly-once under concurrency.  For `K ≥ 1` goroutines racing
`EnsureLoaded` on one fresh `Runtime` whose `LoadFunc` always succeeds
(arbitrarily slowly — the loader's run interleaves freely with every
other step) and whose context is never done, every interleaved
execution in which all `K` callers have returned satisfies: the total
number of `LoadFunc` invocations is exactly one, and every caller
returned success.  (The loader's outcome entering the model is the
actual `loadWithRetry` result; termination of the polling itself is a
fairness property outside this safety statement.) -/
theorem ensureLoaded_exactly_once_concurrent
    (ε : Type) (K : Nat) (cfg : Ghappsetup.RunConfig)
    (cancelled : Nat → Bool) (load : Nat → Option ε) (ctxe : ε ⊕ Unit)
    (hK : 1 ≤ K) (hmr : 1 ≤ cfg.MaxRetries) (hload : ∀ k, load k = none)
    (s : Ghappsetup.CState (ε ⊕ Unit))
    (hreach : Relation.ReflTransGen
        (Ghappsetup.CStep (ε ⊕ Unit) (Ghappsetup.loaderOutcome cfg cancelled load).1
          (Ghappsetup.loaderOutcome cfg cancelled load).2 false ctxe)
        (Ghappsetup.initCState (ε ⊕ Unit) K) s)
    (hterm : ∀ (j : Nat) (p : Ghappsetup.Phase (ε ⊕ Unit)),
        s.threads[j]? = some p → ∃ r, p = Ghappsetup.Phase.done r) :
    s.count = 1
    ∧ ∀ (j : Nat) (p : Ghappsetup.Phase (ε ⊕ Unit)),
        s.threads[j]? = some p → p = Ghappsetup.Phase.done none := by
  have hout : Ghappsetup.loaderOutcome cfg cancelled load = (none, 1) := by
    unfold Ghappsetup.loaderOutcome
    rw [Ghappsetup.loadWithRetry_firstSuccess cfg cancelled load hload hmr]
    rfl
  have hreach' : Relation.ReflTransGen
      (Ghappsetup.CStep (ε ⊕ Unit) none 1 false ctxe)
      (Ghappsetup.initCState (ε ⊕ Unit) K) s := by
    rw [hout] at hreach
    exact hreach
  obtain ⟨hlen, hphase⟩ := Ghappsetup.CInv_reach hreach'
  rcases hphase with ⟨-, -, -, -, hall⟩ | ⟨-, -, -, i0, hloader, -⟩ | ⟨-, -, -, h4, hall⟩
  · have hlt : 0 < s.threads.length := by omega
    have h0 := List.getElem?_eq_getElem hlt
    obtain ⟨r, hr⟩ := hterm 0 _ h0
    have hs := hall 0 _ h0
    rw [hs] at hr
    cases hr
  · rcases hloader with ⟨hl0, -⟩ | ⟨hl0, -⟩ <;>
      · obtain ⟨r, hr⟩ := hterm i0 _ hl0
        cases hr
  · refine ⟨h4, ?_⟩
    intro j p hj
    rcases hall j p hj with h | h | h
    · obtain ⟨r, hr⟩ := hterm j p hj
      rw [h] at hr
      cases hr
    · obtain ⟨r, hr⟩ := hterm j p hj
      rw [h] at hr
      cases hr
    · exact h

/-- C1 witness: one caller on a fresh runtime claims the loader role,
loads once, and publishes success; in the resulting terminated state
the count is one and the caller returned success. -/
theorem ensureLoaded_exactly_once_witness :
    (⟨false, true, none, true, 1, [Ghappsetup.Phase.done none]⟩
        : Ghappsetup.CState (Nat ⊕ Unit)).count = 1
    ∧ ∀ (j : Nat) (p : Ghappsetup.Phase (Nat ⊕ Unit)),
        (⟨false, true, none, true, 1, [Ghappsetup.Phase.done none]⟩
            : Ghappsetup.CState (Nat ⊕ Unit)).threads[j]? = some p →
        p = Ghappsetup.Phase.done none := by
  have h01 : Ghappsetup.CStep (Nat ⊕ Unit) none 1 false (Sum.inr ())
      (Ghappsetup.initCState (Nat ⊕ Unit) 1)
      ⟨true, false, none, false, 0, [Ghappsetup.Phase.load]⟩ :=
    Ghappsetup.CStep.start_claim _ 0 rfl rfl rfl
  have h12 : Ghappsetup.CStep (Nat ⊕ Unit) none 1 false (Sum.inr ())
      (⟨true, false, none, false, 0, [Ghappsetup.Phase.load]⟩
        : Ghappsetup.CState (Nat ⊕ Unit))
      ⟨true, false, none, false, 1, [Ghappsetup.Phase.finish none]⟩ :=
    Ghappsetup.CStep.run_load _ 0 rfl
  have h23 : Ghappsetup.CStep (Nat ⊕ Unit) none 1 false (Sum.inr ())
      (⟨true, false, none, false, 1, [Ghappsetup.Phase.finish none]⟩
        : Ghappsetup.CState (Nat ⊕ Unit))
      ⟨false, true, none, true, 1, [Ghappsetup.Phase.done none]⟩ :=
    Ghappsetup.CStep.finish_ok _ 0 rfl
  refine ensureLoaded_exactly_once_concurrent Nat 1 ⟨true, 1, 0⟩ (fun _ => false)
    (fun _ => none) (Sum.inr ()) (le_refl 1) (by decide) (fun _ => rfl) _
    (Relation.ReflTransGen.tail (Relation.ReflTransGen.tail
      (Relation.ReflTransGen.tail Relation.ReflTransGen.refl h01) h12) h23) ?_
  intro j p hj
  cases j with
  | zero =>
      cases hj
      exact ⟨none, rfl⟩
  | succ n => cases hj
